import Mathlib

/-!
Verification of the generator-based cooperative coroutine protocol
demonstrated in `src/3-generators.js`.

The repository contains example generator definitions together with the
documented outputs of stepping them (`next()` / `yield` / `yield*`
semantics).  The coroutine engine itself (creation, resumption, value
exchange, delegation, completion) is the host runtime, described by the
specification; we model it here and embed each example generator body
from the source file.
-/

namespace AsyncTask

/-- JavaScript values appearing in the examples: `undefined` and strings. -/
inductive Value where
  | undef
  | str (s : String)
deriving DecidableEq, Repr

/-- Template-literal interpolation of a value, as in `` `1. ${yield}` ``:
`undefined` prints as "undefined", a string prints as itself. -/
def display : Value → String
  | .undef => "undefined"
  | .str s => s

/-- A coroutine body, in continuation style.  Each constructor corresponds
to a statement form used by the generator bodies in `src/3-generators.js`:
`console.log` of a message, `yield` of a value (the continuation receives
the value sent by the next resumption), a `yield` lexically wrapped in a
`try`/`catch` whose handler is the second continuation, `return`, `throw`,
and `yield*` delegation (the continuation receives the inner generator's
return value). -/
inductive GenBody where
  | done (ret : Value)
  | yieldP (out : Value) (k : Value → GenBody)
  | yieldTry (out : Value) (k : Value → GenBody) (h : String → GenBody)
  | log (msg : String) (rest : GenBody)
  | throwE (e : String)
  | delegate (inner : GenBody) (k : Value → GenBody)

/-- Modelled from the spec: the state of a Coroutine Instance, §3 of the
spec — `SUSPENDED_START` (body not yet entered), `RUNNING`,
`SUSPENDED_YIELD` (paused at a suspension point, holding the continuation
and, when the suspension point sits inside a failure handler's scope, the
handler), and `COMPLETED` (with `pendingError` set when the computation
terminated via a thrown failure). -/
inductive GState where
  | suspendedStart (body : GenBody)
  | running
  | suspendedYield (k : Value → GenBody) (h : Option (String → GenBody))
  | completed (pendingError : Option String)

/-- Result of running a body forward until it suspends, returns or throws. -/
inductive StepResult where
  | yielded (out : Value) (k : Value → GenBody) (h : Option (String → GenBody))
  | returned (ret : Value)
  | threw (e : String)

/-- Outcome of a `resume`/`throwInto` call as seen by the caller: a
`{value, done}` record, an `InvalidStateError`, or a failure propagated
out of the body. -/
inductive Outcome where
  | result (value : Value) (done : Bool)
  | invalidState
  | bodyError (e : String)
deriving DecidableEq, Repr

/-- Run a body synchronously until the next suspension point, a return or
an uncaught throw, collecting the `console.log` output produced on the
way.  Delegation (`yield*`) surfaces the inner generator's yields as the
outer generator's own and, when the inner returns, feeds its return value
to the delegation expression's continuation. -/
def runToSuspend : GenBody → List String × StepResult
  | .done r => ([], .returned r)
  | .throwE e => ([], .threw e)
  | .yieldP out k => ([], .yielded out k none)
  | .yieldTry out k h => ([], .yielded out k (some h))
  | .log m rest =>
    let (ls, r) := runToSuspend rest
    (m :: ls, r)
  | .delegate inner k =>
    match runToSuspend inner with
    | (ls, .yielded out ki none) =>
        (ls, .yielded out (fun v => .delegate (ki v) k) none)
    | (ls, .yielded out ki (some hi)) =>
        (ls, .yielded out (fun v => .delegate (ki v) k)
             (some (fun e => .delegate (hi e) k)))
    | (ls, .returned r) =>
        let (ls2, r2) := runToSuspend (k r)
        (ls ++ ls2, r2)
    | (ls, .threw e) => (ls, .threw e)

/-- Turn the result of running the body into the caller-visible outcome
and the instance's next state: a suspension reports
`{value: out, done: false}` and parks the continuation; a normal return
reports `{value: ret, done: true}` and completes; an uncaught throw
propagates to the caller and completes with `pendingError` set. -/
def settle : List String × StepResult → List String × Outcome × GState
  | (ls, .yielded out k h) => (ls, .result out false, .suspendedYield k h)
  | (ls, .returned r) => (ls, .result r true, .completed none)
  | (ls, .threw e) => (ls, .bodyError e, .completed (some e))

/-- Modelled from the spec: `create(definition)`, §4.1 — allocates a new
instance in `SUSPENDED_START`; no body code executes yet. -/
def create (body : GenBody) : GState := .suspendedStart body

/-- Modelled from the spec: `resume(instance, inputValue?)`, §4.1 —
the engine operation is not itself in the source; its behavior follows
§4.1/§7 of the spec and the outputs documented alongside each example in
`src/3-generators.js` (lines 24–33, 184–196, 209–211).  Supplying an
input value on a fresh instance is an `InvalidStateError` (source line
211 documents the `TypeError`); resuming a suspended instance delivers
the input to the suspension expression and runs to the next suspension
point; resuming a `RUNNING` instance is an `InvalidStateError`; resuming
a `COMPLETED` instance is a no-op reporting `{value: undefined, done:
true}`. -/
def resume : GState → Option Value → List String × Outcome × GState
  | .suspendedStart body, none => settle (runToSuspend body)
  | .suspendedStart body, some _ => ([], .invalidState, .suspendedStart body)
  | .suspendedYield k _, inp => settle (runToSuspend (k (inp.getD .undef)))
  | .running, _ => ([], .invalidState, .running)
  | .completed pe, _ => ([], .result .undef true, .completed pe)

/-- Modelled from the spec: `throwInto(instance, errorValue)`, §4.1 —
raises the error at the current suspension point as if the suspension
expression itself had failed: a surrounding failure handler receives it
and the body continues; otherwise the error propagates to the caller and
the instance completes with `pendingError` set (same completion
semantics as `resume`). -/
def throwInto : GState → String → List String × Outcome × GState
  | .suspendedStart _, e => ([], .bodyError e, .completed (some e))
  | .suspendedYield _ (some h), e => settle (runToSuspend (h e))
  | .suspendedYield _ none, e => ([], .bodyError e, .completed (some e))
  | .running, _ => ([], .invalidState, .running)
  | .completed _, e => ([], .bodyError e, .completed (some e))

/-- Embeds `genFunc` (src/3-generators.js lines 15–19):
`console.log('First'); yield; console.log('Second');`. -/
def genFunc : GenBody :=
  .log "First" (.yieldP .undef (fun _ => .log "Second" (.done .undef)))

/-- Embeds `dataConsumer` (src/3-generators.js lines 172–177):
logs `Started`, then twice logs the value received at a bare `yield`
(template-interpolated), then returns `'result'`. -/
def dataConsumer : GenBody :=
  .log "Started" (.yieldP .undef (fun v1 =>
    .log ("1. " ++ display v1) (.yieldP .undef (fun v2 =>
      .log ("2. " ++ display v2) (.done (.str "result"))))))

/-- Embeds `foo` (src/3-generators.js lines 91–94): `yield 'a'; yield 'b';`. -/
def foo : GenBody :=
  .yieldP (.str "a") (fun _ => .yieldP (.str "b") (fun _ => .done .undef))

/-- Embeds `bar` (src/3-generators.js lines 96–100):
`yield 'x'; yield* foo(); yield 'y';`. -/
def bar : GenBody :=
  .yieldP (.str "x") (fun _ =>
    .delegate foo (fun _ => .yieldP (.str "y") (fun _ => .done .undef)))

/-- Embeds `g` (src/3-generators.js line 209): `function* g() { yield }`. -/
def g : GenBody := .yieldP .undef (fun _ => .done .undef)

/-- Apply `resume` to a sequence of inputs, reporting each call's logs and
outcome in order. -/
def runSeq : GState → List (Option Value) → List (List String × Outcome)
  | _, [] => []
  | s, i :: is =>
    let (ls, o, s') := resume s i
    (ls, o) :: runSeq s' is

/-- Apply `resume` to a sequence of inputs, keeping the final state. -/
def applyResumes : GState → List (Option Value) → GState
  | s, [] => s
  | s, i :: is => applyResumes (resume s i).2.2 is

/-- Drain an instance by repeated no-input `resume` (at most `fuel`
calls): the yielded values in order, and the final return value if
completion was reached within `fuel` calls. -/
def drainVals : Nat → GState → List Value × Option Value
  | 0, _ => ([], none)
  | fuel + 1, s =>
    match resume s none with
    | (_, .result v false, s') =>
        let (vs, r) := drainVals fuel s'
        (v :: vs, r)
    | (_, .result v true, _) => ([], some v)
    | (_, _, _) => ([], none)

/-- A statement inside an ordinary (non-generator) callback function,
such as the arrow function passed to `forEach` in src/3-generators.js
line 154: a `console.log`, or an (illegal) `yield`. -/
inductive CbStmt where
  | clog (msg : String)
  | cyield (v : Value)
deriving DecidableEq, Repr

/-- A straight-line statement of a coroutine definition: `console.log`,
`yield`, `return`, or a `forEach` call over a list of items whose
ordinary-callback body is a list of `CbStmt`. -/
inductive SStmt where
  | slog (msg : String)
  | syield (v : Value)
  | sret (v : Value)
  | sforEach (items : List Value) (cb : List CbStmt)
deriving DecidableEq, Repr

/-- Does an ordinary-callback body contain a `yield`?  (Such a body is a
`SyntaxError`, src/3-generators.js line 154.) -/
def hasCbYield : List CbStmt → Bool
  | [] => false
  | .cyield _ :: _ => true
  | .clog _ :: rest => hasCbYield rest

/-- The `console.log` output of one run of a legal callback body. -/
def cbLogList : List CbStmt → List String
  | [] => []
  | .clog m :: rest => m :: cbLogList rest
  | .cyield _ :: rest => cbLogList rest

/-- The `console.log` output of `items.forEach(cb)` for a legal callback:
the callback body's logs, once per item, in order. -/
def itemsLogs : List Value → List CbStmt → List String
  | [], _ => []
  | _ :: is, cb => cbLogList cb ++ itemsLogs is cb

/-- Prefix a body with a sequence of `console.log` statements. -/
def prependLogs : List String → GenBody → GenBody
  | [], b => b
  | m :: ms, b => .log m (prependLogs ms b)

/-- Compile a straight-line coroutine definition to a `GenBody`.
Modelled from the spec: suspension inside a nested ordinary callback is
statically disallowed (§5, §7 `UnsupportedSuspensionError`; the source
documents the `SyntaxError` at src/3-generators.js line 154), so a
`forEach` whose callback contains a `yield` is rejected; statements after
a `return` are checked (rejection is syntactic) but never run. -/
def compileStmts : List SStmt → Except Unit GenBody
  | [] => .ok (.done .undef)
  | .slog m :: rest => (compileStmts rest).map (.log m)
  | .sret v :: rest => (compileStmts rest).map (fun _ => .done v)
  | .syield v :: rest => (compileStmts rest).map (fun b => .yieldP v (fun _ => b))
  | .sforEach items cb :: rest =>
      if hasCbYield cb then .error ()
      else (compileStmts rest).map (fun b => prependLogs (itemsLogs items cb) b)

/-- All ordinary callbacks in the definition are free of `yield`. -/
def cbYieldFree : List SStmt → Bool
  | [] => true
  | .sforEach _ cb :: rest => !hasCbYield cb && cbYieldFree rest
  | .slog _ :: rest => cbYieldFree rest
  | .sret _ :: rest => cbYieldFree rest
  | .syield _ :: rest => cbYieldFree rest

/-- Did compilation succeed? -/
def isOkB : Except Unit GenBody → Bool
  | .ok _ => true
  | .error _ => false

/-- The suspension points of a straight-line definition, in program
order, as the values they yield (execution stops at the first `return`). -/
def yieldVals : List SStmt → List Value
  | [] => []
  | .syield v :: rest => v :: yieldVals rest
  | .sret _ :: _ => []
  | .slog _ :: rest => yieldVals rest
  | .sforEach _ _ :: rest => yieldVals rest

/-- The return value of a straight-line definition (`undefined` when no
`return` statement is reached). -/
def retVal : List SStmt → Value
  | [] => .undef
  | .sret v :: _ => v
  | .slog _ :: rest => retVal rest
  | .syield _ :: rest => retVal rest
  | .sforEach _ _ :: rest => retVal rest

/-- The `forEach` variant of `genFunc` (src/3-generators.js lines
153–155): `['a','b'].forEach(x => yield x)` — a `yield` inside an
ordinary callback (the yield operand, the loop element, is irrelevant to
its rejection). -/
def genFuncForEach : List SStmt :=
  [.sforEach [.str "a", .str "b"] [.cyield .undef]]

/-- The sequence of caller-visible outcomes of the first `fuel` no-input
`resume` calls on an instance. -/
def drainOutcomes : Nat → GState → List Outcome
  | 0, _ => []
  | fuel + 1, s =>
    let (_, o, s') := resume s none
    o :: drainOutcomes fuel s'

/-- The outcome and next state of `settle` do not depend on the logs. -/
theorem settle_snd (ls ls2 : List String) (r : StepResult) :
    (settle (ls, r)).2 = (settle (ls2, r)).2 := by
  cases r <;> rfl

/-- Wrapping a body in a `console.log` changes no caller-visible outcome
of a drain. -/
theorem drainOutcomes_log (n : Nat) (m : String) (b : GenBody) :
    drainOutcomes n (.suspendedStart (.log m b))
      = drainOutcomes n (.suspendedStart b) := by
  cases n with
  | zero => rfl
  | succ n =>
    have hrun : runToSuspend (.log m b)
        = ((runToSuspend b).1.cons m, (runToSuspend b).2) := by
      simp [runToSuspend]
    have hsnd : (settle (runToSuspend (.log m b))).2
        = (settle (runToSuspend b)).2 := by
      rw [hrun]
      exact settle_snd _ (runToSuspend b).1 (runToSuspend b).2
    simp only [drainOutcomes, resume]
    rw [congrArg Prod.fst hsnd, congrArg Prod.snd hsnd]

/-- Prefixing a body with `console.log` statements changes no
caller-visible outcome of a drain. -/
theorem drainOutcomes_prependLogs (ls : List String) (n : Nat) (b : GenBody) :
    drainOutcomes n (.suspendedStart (prependLogs ls b))
      = drainOutcomes n (.suspendedStart b) := by
  induction ls with
  | nil => rfl
  | cons m ms ih =>
    calc drainOutcomes n (.suspendedStart (prependLogs (m :: ms) b))
        = drainOutcomes n (.suspendedStart (prependLogs ms b)) :=
          drainOutcomes_log n m (prependLogs ms b)
      _ = drainOutcomes n (.suspendedStart b) := ih

/-- Draining from a suspension whose continuation ignores its input is
draining the continuation body from the start. -/
theorem drainOutcomes_suspendedYield (n : Nat) (b : GenBody) :
    drainOutcomes n (.suspendedYield (fun _ => b) none)
      = drainOutcomes n (.suspendedStart b) := by
  cases n <;> rfl

/-- Draining a compiled straight-line definition: each suspension point
reports its yielded value with `done: false`, in program order, and the
final call reports the return value with `done: true`. -/
theorem drain_compiled (b : List SStmt) : ∀ bg : GenBody,
    compileStmts b = .ok bg →
    drainOutcomes ((yieldVals b).length + 1) (.suspendedStart bg)
      = (yieldVals b).map (fun v => Outcome.result v false)
          ++ [Outcome.result (retVal b) true] := by
  induction b with
  | nil =>
    intro bg h
    simp only [compileStmts] at h
    cases h
    rfl
  | cons s rest ih =>
    intro bg h
    cases s with
    | slog m =>
      simp only [compileStmts] at h
      cases hc : compileStmts rest with
      | error e => rw [hc] at h; cases h
      | ok bg' =>
        rw [hc] at h
        cases h
        show drainOutcomes ((yieldVals rest).length + 1)
            (.suspendedStart (.log m bg')) = _
        rw [drainOutcomes_log]
        exact ih bg' hc
    | sret v =>
      simp only [compileStmts] at h
      cases hc : compileStmts rest with
      | error e => rw [hc] at h; cases h
      | ok bg' =>
        rw [hc] at h
        cases h
        rfl
    | syield v =>
      simp only [compileStmts] at h
      cases hc : compileStmts rest with
      | error e => rw [hc] at h; cases h
      | ok bg' =>
        rw [hc] at h
        cases h
        have hstep : drainOutcomes ((v :: yieldVals rest).length + 1)
            (GState.suspendedStart (.yieldP v (fun _ => bg')))
            = Outcome.result v false ::
              drainOutcomes ((yieldVals rest).length + 1)
                (GState.suspendedYield (fun _ => bg') none) := rfl
        show drainOutcomes ((v :: yieldVals rest).length + 1)
            (.suspendedStart (.yieldP v (fun _ => bg'))) = _
        rw [hstep, drainOutcomes_suspendedYield, ih bg' hc]
        rfl
    | sforEach items cb =>
      simp only [compileStmts] at h
      by_cases hy : hasCbYield cb = true
      · rw [if_pos hy] at h; cases h
      · rw [if_neg hy] at h
        cases hc : compileStmts rest with
        | error e => rw [hc] at h; cases h
        | ok bg' =>
          rw [hc] at h
          cases h
          show drainOutcomes ((yieldVals rest).length + 1)
              (.suspendedStart (prependLogs (itemsLogs items cb) bg')) = _
          rw [drainOutcomes_prependLogs]
          exact ih bg' hc

/-- A test body in the shape of the `co(function*)` example's
`try`/`catch` (src/3-generators.js lines 69–83), but whose failure
handler, after logging, yields a recovery value so the coroutine
continues instead of completing. -/
def recoverBody : GenBody :=
  .yieldTry (.str "PromiseAll")
    (fun _ => .done .undef)
    (fun e => .log ("Failure to read: " ++ e)
      (.yieldP (.str "recovered") (fun _ => .done .undef)))

/-- Is the instance in `SUSPENDED_START`? -/
def isStart : GState → Bool
  | .suspendedStart _ => true
  | _ => false

/-- Is the instance in `COMPLETED`? -/
def isCompleted : GState → Bool
  | .completed _ => true
  | _ => false

/-- Settling a step result never parks an instance back in
`SUSPENDED_START`. -/
theorem isStart_settle (p : List String × StepResult) :
    isStart (settle p).2.2 = false := by
  obtain ⟨ls, r⟩ := p
  cases r <;> rfl

/-- C1: for every coroutine definition with N suspension points (here:
every straight-line definition that compiles, N = `(yieldVals b).length`),
exactly N+1 `resume` calls reach `done: true`: the first N calls report
the successive yielded values with `done: false` and the (N+1)-th call
reports the return value with `done: true`; in particular with N = 0 the
very first `resume` returns the return value with `done: true`. -/
theorem claim1_exact_resume_count (b : List SStmt) (bg : GenBody)
    (h : compileStmts b = .ok bg) :
    drainOutcomes ((yieldVals b).length + 1) (create bg)
      = (yieldVals b).map (fun v => Outcome.result v false)
          ++ [Outcome.result (retVal b) true] :=
  drain_compiled b bg h

/-- Witness for C1: the surface form of `genFunc` (one suspension point,
two calls: `done: false` then `done: true`) and a zero-suspension-point
definition whose very first `resume` returns its return value with
`done: true`. -/
theorem claim1_exact_resume_count_witness :
    (compileStmts [SStmt.slog "First", SStmt.syield .undef, SStmt.slog "Second"]
        = .ok genFunc
      ∧ drainOutcomes 2 (create genFunc)
        = [Outcome.result .undef false, Outcome.result .undef true])
    ∧ (compileStmts [SStmt.sret (Value.str "r")] = .ok (GenBody.done (.str "r"))
      ∧ drainOutcomes 1 (create (GenBody.done (.str "r")))
        = [Outcome.result (.str "r") true]) := by
  refine ⟨⟨rfl, ?_⟩, ⟨rfl, ?_⟩⟩
  · exact claim1_exact_resume_count
      [SStmt.slog "First", SStmt.syield .undef, SStmt.slog "Second"] genFunc rfl
  · exact claim1_exact_resume_count [SStmt.sret (Value.str "r")]
      (GenBody.done (.str "r")) rfl

/-- C2: draining `bar` (which yields `'x'`, delegates to `foo` yielding
`'a'` then `'b'`, then yields `'y'`) produces exactly
`['x','a','b','y']` with return value `undefined`; and in general a value
yielded by a delegated-to inner body is surfaced by the outer body as its
own yield, with the same value and logs. -/
theorem claim2_delegation_order :
    drainVals 5 (create bar)
      = ([Value.str "x", .str "a", .str "b", .str "y"], some .undef)
    ∧ ∀ (inner : GenBody) (k ki : Value → GenBody) (ls : List String)
        (out : Value),
        runToSuspend inner = (ls, .yielded out ki none) →
        runToSuspend (.delegate inner k)
          = (ls, .yielded out (fun v => .delegate (ki v) k) none) := by
  refine ⟨by decide, ?_⟩
  intro inner k ki ls out h
  simp only [runToSuspend]
  rw [h]

/-- Witness for C2's general clause: `foo`'s first yield of `'a'` is
surfaced unchanged by a delegating outer body. -/
theorem claim2_delegation_order_witness :
    runToSuspend foo
      = ([], .yielded (Value.str "a")
          (fun _ => GenBody.yieldP (.str "b") (fun _ => .done .undef)) none)
    ∧ runToSuspend (GenBody.delegate foo (fun _ => GenBody.done .undef))
      = ([], .yielded (Value.str "a")
          (fun v => GenBody.delegate
            ((fun _ => GenBody.yieldP (.str "b") (fun _ => GenBody.done .undef)) v)
            (fun _ => GenBody.done .undef)) none) := by
  refine ⟨rfl, ?_⟩
  exact claim2_delegation_order.2 foo (fun _ => GenBody.done .undef) _ [] (.str "a") rfl

/-- C3: stepping `dataConsumer` with the call sequence
`next(); next('a'); next('b')` logs `Started`, `1. a`, `2. b` and
returns, in order, `{value: undefined, done: false}`,
`{value: undefined, done: false}`, `{value: 'result', done: true}`. -/
theorem claim3_dataConsumer_scenario :
    runSeq (create dataConsumer) [none, some (.str "a"), some (.str "b")]
      = [(["Started"], .result .undef false),
         (["1. a"], .result .undef false),
         (["2. b"], .result (.str "result") true)] := by
  decide

/-- C4: a `resume` on a `COMPLETED` instance, with or without an input,
returns `{value: undefined, done: true}`, produces no log output
(executes no body statement) and leaves the state unchanged; any number
of further `resume` calls leave the instance in the same `COMPLETED`
state. -/
theorem claim4_completed_resume_noop (pe : Option String) (inp : Option Value)
    (inputs : List (Option Value)) :
    resume (.completed pe) inp = ([], .result .undef true, .completed pe)
    ∧ applyResumes (.completed pe) inputs = .completed pe := by
  refine ⟨rfl, ?_⟩
  induction inputs with
  | nil => rfl
  | cons i is ih => exact ih

/-- C5: a `resume` carrying an input value on a fresh
(`SUSPENDED_START`) instance fails with `InvalidStateError`, runs no
body statement (no logs) and leaves the state unchanged; in particular
`g().next('hello')` fails this way. -/
theorem claim5_fresh_input_invalid_state (body : GenBody) (v : Value) :
    resume (.suspendedStart body) (some v)
      = ([], .invalidState, .suspendedStart body)
    ∧ resume (create g) (some (.str "hello"))
      = ([], .invalidState, create g) :=
  ⟨rfl, rfl⟩

/-- C6: when `throwInto` raises an error at a suspension point wrapped in
a failure handler and the handler runs to a further suspension point, the
call returns the handler's recovery value with `done: false` — the error
does not propagate to the caller (the outcome is a `result`, not a
`bodyError`) and the instance is suspended again, not `COMPLETED`. -/
theorem claim6_throwInto_handler_recovers (k k2 : Value → GenBody)
    (h : String → GenBody) (h2 : Option (String → GenBody))
    (e : String) (out : Value) (ls : List String)
    (hrun : runToSuspend (h e) = (ls, .yielded out k2 h2)) :
    throwInto (.suspendedYield k (some h)) e
      = (ls, .result out false, .suspendedYield k2 h2) := by
  simp only [throwInto]
  rw [hrun]
  rfl

/-- Witness for C6: throwing `"boom"` into `recoverBody` at its first
suspension point runs the handler, which logs and yields `'recovered'`
with `done: false`. -/
theorem claim6_throwInto_handler_recovers_witness :
    runToSuspend
        ((fun e => GenBody.log ("Failure to read: " ++ e)
          (.yieldP (.str "recovered") (fun _ => .done .undef))) "boom")
      = (["Failure to read: boom"],
         .yielded (.str "recovered") (fun _ => GenBody.done .undef) none)
    ∧ throwInto (.suspendedYield (fun _ => GenBody.done .undef)
        (some (fun e => GenBody.log ("Failure to read: " ++ e)
          (.yieldP (.str "recovered") (fun _ => .done .undef))))) "boom"
      = (["Failure to read: boom"], .result (.str "recovered") false,
         .suspendedYield (fun _ => GenBody.done .undef) none) := by
  refine ⟨rfl, ?_⟩
  exact claim6_throwInto_handler_recovers _ _ _ _ "boom" _ _ rfl

/-- C7: an uncaught failure raised by the body during a `resume` (from
the start or from a suspension) or a `throwInto` (handled by no handler)
is propagated verbatim to the caller of the triggering call, and the
instance transitions to `COMPLETED` with `pendingError` set to that
failure — it is never left resumable. -/
theorem claim7_uncaught_error_propagates :
    (∀ (body : GenBody) (ls : List String) (e : String),
        runToSuspend body = (ls, .threw e) →
        resume (.suspendedStart body) none
          = (ls, .bodyError e, .completed (some e)))
    ∧ (∀ (k : Value → GenBody) (h : Option (String → GenBody)) (v : Value)
        (ls : List String) (e : String),
        runToSuspend (k v) = (ls, .threw e) →
        resume (.suspendedYield k h) (some v)
          = (ls, .bodyError e, .completed (some e)))
    ∧ (∀ (k : Value → GenBody) (h : String → GenBody) (e : String)
        (ls : List String) (e2 : String),
        runToSuspend (h e) = (ls, .threw e2) →
        throwInto (.suspendedYield k (some h)) e
          = (ls, .bodyError e2, .completed (some e2)))
    ∧ (∀ (k : Value → GenBody) (e : String),
        throwInto (.suspendedYield k none) e
          = ([], .bodyError e, .completed (some e))) := by
  refine ⟨?_, ?_, ?_, ?_⟩
  · intro body ls e hrun
    simp only [resume]
    rw [hrun]
    rfl
  · intro k h v ls e hrun
    simp only [resume, Option.getD]
    rw [hrun]
    rfl
  · intro k h e ls e2 hrun
    simp only [throwInto]
    rw [hrun]
    rfl
  · intro k e
    rfl

/-- Witness for C7: a body that logs then throws `"boom"` propagates
`"boom"` to the caller of the first `resume` and completes with
`pendingError = "boom"`. -/
theorem claim7_uncaught_error_propagates_witness :
    runToSuspend (GenBody.log "before" (.throwE "boom"))
      = (["before"], .threw "boom")
    ∧ resume (.suspendedStart (GenBody.log "before" (.throwE "boom"))) none
      = (["before"], .bodyError "boom", .completed (some "boom")) := by
  refine ⟨rfl, ?_⟩
  exact claim7_uncaught_error_propagates.1 _ _ _ rfl

/-- C8: the `forEach` variant of `genFunc`, which yields from inside an
ordinary callback, is rejected statically by compilation (never a silent
no-op); and in general a definition compiles exactly when every ordinary
callback in it is free of `yield`, so a compiled body suspends only at
suspension points authored directly in the body. -/
theorem claim8_yield_in_callback_rejected :
    compileStmts genFuncForEach = .error ()
    ∧ ∀ b : List SStmt, isOkB (compileStmts b) = cbYieldFree b := by
  refine ⟨rfl, ?_⟩
  intro b
  induction b with
  | nil => rfl
  | cons s rest ih =>
    cases s with
    | slog m =>
      show isOkB ((compileStmts rest).map _) = cbYieldFree rest
      cases hc : compileStmts rest <;> rw [hc] at ih <;> exact ih
    | sret v =>
      show isOkB ((compileStmts rest).map _) = cbYieldFree rest
      cases hc : compileStmts rest <;> rw [hc] at ih <;> exact ih
    | syield v =>
      show isOkB ((compileStmts rest).map _) = cbYieldFree rest
      cases hc : compileStmts rest <;> rw [hc] at ih <;> exact ih
    | sforEach items cb =>
      show isOkB (if hasCbYield cb then .error ()
          else (compileStmts rest).map _)
        = (!hasCbYield cb && cbYieldFree rest)
      cases hy : hasCbYield cb
      · rw [if_neg Bool.false_ne_true, Bool.not_false, Bool.true_and]
        cases hc : compileStmts rest <;> rw [hc] at ih <;> exact ih
      · rw [if_pos rfl]
        rfl

/-- C9: the lifecycle only moves forward: `create` places the instance in
`SUSPENDED_START`; no `resume` from a suspension, from `RUNNING` or from
`COMPLETED`, and no `throwInto` from any state, ever produces
`SUSPENDED_START` again; a `COMPLETED` instance stays `COMPLETED` under
both operations; and `resume`/`throwInto` on a `RUNNING` instance fail
with `InvalidStateError`, leaving the state unchanged. -/
theorem claim9_lifecycle_forward_only :
    (∀ b : GenBody, create b = .suspendedStart b)
    ∧ (∀ b : GenBody, isStart (resume (.suspendedStart b) none).2.2 = false)
    ∧ (∀ (k : Value → GenBody) (h : Option (String → GenBody))
        (inp : Option Value),
        isStart (resume (.suspendedYield k h) inp).2.2 = false)
    ∧ (∀ s : GState, ∀ e : String, isStart (throwInto s e).2.2 = false)
    ∧ (∀ (pe : Option String) (inp : Option Value),
        isCompleted (resume (.completed pe) inp).2.2 = true)
    ∧ (∀ (pe : Option String) (e : String),
        isCompleted (throwInto (.completed pe) e).2.2 = true)
    ∧ (∀ inp : Option Value,
        (resume .running inp).2.1 = .invalidState
          ∧ (resume .running inp).2.2 = .running)
    ∧ (∀ e : String,
        (throwInto .running e).2.1 = .invalidState
          ∧ (throwInto .running e).2.2 = .running) := by
  refine ⟨fun b => rfl, ?_, ?_, ?_, ?_, ?_, ?_, ?_⟩
  · intro b
    exact isStart_settle (runToSuspend b)
  · intro k h inp
    exact isStart_settle (runToSuspend (k (inp.getD .undef)))
  · intro s e
    cases s with
    | suspendedStart b => rfl
    | running => rfl
    | completed pe => rfl
    | suspendedYield k h =>
      cases h with
      | none => rfl
      | some hh => exact isStart_settle (runToSuspend (hh e))
  · intro pe inp; rfl
  · intro pe e; rfl
  · intro inp; exact ⟨rfl, rfl⟩
  · intro e; exact ⟨rfl, rfl⟩

/-- C10: the input value of a `resume` on a suspended instance becomes
the value of the suspended (k-th) suspension expression — the engine
delivers it to the parked continuation and the call reports the next
suspension or completion; concretely, in `dataConsumer` the inputs of
the second and third calls appear in the logs of the first and second
suspension expressions (`1. <v>`, `2. <w>`), while each call's result
reports the following suspension or the completion. -/
theorem claim10_resume_input_binds_suspension (v w : Value) :
    (∀ (k : Value → GenBody) (h : Option (String → GenBody)),
        resume (.suspendedYield k h) (some v) = settle (runToSuspend (k v)))
    ∧ runSeq (create dataConsumer) [none, some v, some w]
      = [(["Started"], .result .undef false),
         (["1. " ++ display v], .result .undef false),
         (["2. " ++ display w], .result (.str "result") true)] :=
  ⟨fun _ _ => rfl, rfl⟩

end AsyncTask
